import Mathlib

/-
Verification of the perishable-inventory simulation engine
(inventory_sim.py, policies.py, run_experiment.py).

Quantities that Python stores as int are modelled as Int; quantities that
Python stores as float are modelled as Rat. The transcendental library
calls (math.exp, math.sqrt, the Acklam rational approximation of the
inverse normal CDF, random draws) are abstracted as function parameters:
none of the properties proved here depends on their numeric values, only
on the control flow around them. Fallible Python code (raise) is modelled
with Except String.
-/

deriving instance DecidableEq for Except

namespace InvSim

/-- Python int(x) applied to a real value: truncation toward zero. -/
def py_int_trunc (x : ℚ) : ℤ :=
  if 0 ≤ x then ⌊x⌋ else ⌈x⌉

/-- Python round(x) on a real value: round half to even. -/
def py_round (x : ℚ) : ℤ :=
  let f : ℤ := ⌊x⌋
  let frac : ℚ := x - f
  if frac > 1/2 then f + 1
  else if frac < 1/2 then f
  else if f % 2 = 0 then f else f + 1

/-- Python list slicing l[-n:]: the last n entries (the whole list when
shorter than n). -/
def lastN {α : Type} (n : ℕ) (l : List α) : List α :=
  l.drop (l.length - n)

/-- Costs (inventory_sim.py, dataclass Costs). -/
structure Costs where
  waste_cost : ℚ
  stockout_cost : ℚ
  holding_cost : ℚ
deriving DecidableEq

/-- SimConfig (inventory_sim.py, dataclass SimConfig). -/
structure SimConfig where
  horizon_days : ℤ
  warmup_days : ℤ
  shelf_life_days : ℤ
  lead_time_days : ℤ
  costs : Costs
deriving DecidableEq

/-- StepMetrics (inventory_sim.py, dataclass StepMetrics). -/
structure StepMetrics where
  demand : ℤ
  sold : ℤ
  stockout : ℤ
  wasted : ℤ
  on_hand_end : ℤ
  holding_cost : ℚ
  waste_cost : ℚ
  stockout_cost : ℚ
deriving DecidableEq

/-- EpisodeResult (inventory_sim.py, dataclass EpisodeResult). -/
structure EpisodeResult where
  total_demand : ℤ
  total_sold : ℤ
  total_stockout : ℤ
  total_wasted : ℤ
  total_received : ℤ
  total_cost : ℚ
deriving DecidableEq

/-- EpisodeResult.service_level property. -/
def EpisodeResult.service_level (r : EpisodeResult) : ℚ :=
  if r.total_demand ≤ 0 then 1
  else 1 - (r.total_stockout : ℚ) / (r.total_demand : ℚ)

/-- EpisodeResult.waste_rate property. -/
def EpisodeResult.waste_rate (r : EpisodeResult) : ℚ :=
  if r.total_received ≤ 0 then 0
  else (r.total_wasted : ℚ) / (r.total_received : ℚ)

/-- InventoryState (inventory_sim.py, dataclass InventoryState).
Index 0 of on_hand_by_age is the oldest bucket, the last index the
freshest; pipeline index 0 arrives on the next transition. -/
structure InventoryState where
  day : ℤ
  on_hand_by_age : List ℤ
  pipeline : List ℤ
  demand_history : List ℤ
deriving DecidableEq

/-- InventoryState.on_hand_total property. -/
def InventoryState.on_hand_total (s : InventoryState) : ℤ :=
  s.on_hand_by_age.sum

/-- The FIFO-by-freshness selling loop of step_inventory: for each bucket
in order, take = min(bucket, remaining demand), decrement both, and stop
as soon as the remaining demand hits exactly zero. Returns
(new buckets, remaining demand at exit, units sold). -/
def sell_fifo : List ℤ → ℤ → List ℤ × ℤ × ℤ
  | [], rem => ([], rem, 0)
  | b :: bs, rem =>
    let take := min b rem
    let rem1 := rem - take
    if rem1 = 0 then ((b - take) :: bs, 0, take)
    else
      let r := sell_fifo bs rem1
      ((b - take) :: r.1, r.2.1, take + r.2.2)

/-- step_inventory (inventory_sim.py lines 134-194). One day transition:
receive (pipeline head, plus the clamped order when lead time is not
positive), age (the oldest bucket is wasted, the rest shift, arrivals
enter the freshest slot), sell FIFO from oldest, accrue linear costs and
append the raw demand to the bounded history. A length mismatch between
on_hand_by_age and shelf_life_days raises ValueError; indexing an empty
bucket list (shelf_life_days = 0) raises IndexError. -/
def step_inventory (state : InventoryState) (demand order_qty : ℤ)
    (shelf_life_days lead_time_days : ℤ) (costs : Costs) :
    Except String (InventoryState × StepMetrics) :=
  let pipeline0 := state.pipeline
  let received0 := pipeline0.headD 0
  let pipeline1 :=
    if 0 < lead_time_days then pipeline0.tail ++ [max 0 order_qty] else pipeline0
  let received :=
    if 0 < lead_time_days then received0 else received0 + max 0 order_qty
  if (state.on_hand_by_age.length : ℤ) ≠ shelf_life_days then
    .error "on_hand_by_age length mismatch"
  else
    match state.on_hand_by_age with
    | [] => .error "list index out of range"
    | oldest :: rest =>
      let wasted := oldest
      let shelved := rest ++ [received]
      let r := sell_fifo shelved (max 0 demand)
      let on_hand1 := r.1
      let stockout := r.2.1
      let sold := r.2.2
      let next_state : InventoryState :=
        { day := state.day + 1
          on_hand_by_age := on_hand1
          pipeline := if 0 < lead_time_days then pipeline1 else []
          demand_history := lastN 365 (state.demand_history ++ [demand]) }
      let metrics : StepMetrics :=
        { demand := demand
          sold := sold
          stockout := stockout
          wasted := wasted
          on_hand_end := on_hand1.sum
          holding_cost := costs.holding_cost * (on_hand1.sum : ℚ)
          waste_cost := costs.waste_cost * (wasted : ℚ)
          stockout_cost := costs.stockout_cost * (stockout : ℚ) }
      .ok (next_state, metrics)

/-- Running totals accumulated by run_episode. -/
structure RunTotals where
  demand : ℤ
  sold : ℤ
  stockout : ℤ
  wasted : ℤ
  received : ℤ
  cost : ℚ
deriving DecidableEq

/-- run_episode (inventory_sim.py lines 197-255). Drives the day loop for
horizon_days days from the all-zero initial state, accumulating totals.
The received total uses the pre-transition pipeline head (plus the
clamped order when lead_time_days equals 0). The rng seeded from rng_seed
is only drawn from and discarded, so it is carried as an unused argument. -/
def run_episode (cfg : SimConfig) (demand_fn : ℕ → ℤ)
    (policy_fn : InventoryState → ℤ) (rng_seed : ℤ) :
    Except String EpisodeResult := do
  let _ := rng_seed
  let init : InventoryState :=
    { day := 0
      on_hand_by_age := List.replicate cfg.shelf_life_days.toNat 0
      pipeline :=
        if 0 < cfg.lead_time_days then List.replicate cfg.lead_time_days.toNat 0 else []
      demand_history := [] }
  let day_step := fun (acc : InventoryState × RunTotals) (t : ℕ) => do
    let state := acc.1
    let tot := acc.2
    let demand := demand_fn t
    let order_qty := policy_fn state
    let pre_received :=
      state.pipeline.headD 0 +
        (if cfg.lead_time_days = 0 then max 0 order_qty else 0)
    let (state1, m) ← step_inventory state demand order_qty
      cfg.shelf_life_days cfg.lead_time_days cfg.costs
    pure (state1,
      { demand := tot.demand + m.demand
        sold := tot.sold + m.sold
        stockout := tot.stockout + m.stockout
        wasted := tot.wasted + m.wasted
        received := tot.received + pre_received
        cost := tot.cost + (m.holding_cost + m.waste_cost + m.stockout_cost) : RunTotals })
  let fin ← (List.range cfg.horizon_days.toNat).foldlM day_step
    (init, ({ demand := 0, sold := 0, stockout := 0, wasted := 0,
              received := 0, cost := 0 } : RunTotals))
  pure { total_demand := fin.2.demand
         total_sold := fin.2.sold
         total_stockout := fin.2.stockout
         total_wasted := fin.2.wasted
         total_received := fin.2.received
         total_cost := fin.2.cost }

/-- The Knuth multiplicative loop of sample_poisson: while p > L, draw a
uniform, multiply it into p and count. The uniform draws are supplied as
an abstract stream uni and consumed in order; fuel bounds the number of
iterations (the Python loop has no a-priori bound), with none returned on
exhaustion. -/
def knuth_loop (L : ℚ) (uni : ℕ → ℚ) : ℕ → ℕ → ℚ → Option ℤ
  | 0, _, _ => none
  | fuel + 1, k, p =>
    if L < p then knuth_loop L uni fuel (k + 1) (p * uni k)
    else some ((k : ℤ) - 1)

/-- sample_poisson (inventory_sim.py lines 14-29). The rate is floored at
zero; rate 0 returns 0; rate below 50 runs the exact Knuth loop with
expNeg abstracting math.exp(-rate); rate at least 50 takes the normal
approximation branch, where gauss_draw abstracts the one draw
rng.gauss(rate, sqrt(rate)) and the Python code applies int(), i.e.
truncation toward zero, before flooring at 0. -/
def sample_poisson (expNeg : ℚ → ℚ) (uni : ℕ → ℚ) (gauss_draw : ℚ)
    (fuel : ℕ) (lam0 : ℚ) : Option ℤ :=
  let lam := max 0 lam0
  if lam = 0 then some 0
  else if lam < 50 then knuth_loop (expNeg lam) uni fuel 0 1
  else some (max 0 (py_int_trunc gauss_draw))

/-- inv_norm_cdf (inventory_sim.py lines 32-61). Raises ValueError unless
p lies strictly inside (0,1); the numeric value of the Acklam rational
approximation is abstracted as the parameter acklam, since no claim
settled here depends on it. -/
def inv_norm_cdf (acklam : ℚ → ℚ) (p : ℚ) : Except String ℚ :=
  if 0 < p ∧ p < 1 then .ok (acklam p) else .error "p must be in (0,1)"

/-- approx_poisson_quantile (inventory_sim.py lines 64-69). The mean is
floored at zero, mean zero returns 0 directly, and otherwise the service
level is clamped into the closed interval from 1e-6 to 0.999999 before
the inverse normal CDF is applied; sqrtQ abstracts math.sqrt. -/
def approx_poisson_quantile (acklam sqrtQ : ℚ → ℚ) (mu0 service_level : ℚ) :
    Except String ℤ :=
  let mu := max 0 mu0
  if mu = 0 then .ok 0
  else do
    let z ← inv_norm_cdf acklam
      (min (999999/1000000) (max (1/1000000) service_level))
    .ok (max 0 (py_round (mu + z * sqrtQ mu)))

/-- mean (policies.py): 0 on the empty list, else the rational average. -/
def mean (xs : List ℤ) : ℚ :=
  if xs.isEmpty then 0 else (xs.sum : ℚ) / (xs.length : ℚ)

/-- ewma (policies.py): alpha is clamped into the closed interval from 0
to 1, the accumulator is seeded at the first element, then the recurrence
m = alpha * x + (1 - alpha) * m is folded over the remaining elements. -/
def ewma (xs : List ℤ) (alpha : ℚ) : ℚ :=
  match xs with
  | [] => 0
  | x :: rest =>
    let a := max 0 (min 1 alpha)
    rest.foldl (fun m y => a * (y : ℚ) + (1 - a) * m) (x : ℚ)

/-- PolicyConfig (policies.py, frozen dataclass). -/
structure PolicyConfig where
  service_level_target : ℚ
  history_window : ℤ
  ewma_alpha : ℚ
  residual_window : ℤ
deriving DecidableEq

/-- base_stock_order_qty (policies.py): order up to the target from the
inventory position, never negative. -/
def base_stock_order_qty (state : InventoryState) (target_stock : ℤ) : ℤ :=
  max 0 (target_stock - (state.on_hand_total + state.pipeline.sum))

/-- baseline_ma_base_stock (policies.py lines 40-45): moving-average
forecast over the last max(1, history_window) demands, converted to a
base-stock target through approx_poisson_quantile. -/
def baseline_ma_base_stock (acklam sqrtQ : ℚ → ℚ) (state : InventoryState)
    (cfg : PolicyConfig) : Except String ℤ := do
  let hist := lastN (max 1 cfg.history_window).toNat state.demand_history
  let mu := mean hist
  let target ← approx_poisson_quantile acklam sqrtQ mu cfg.service_level_target
  pure (base_stock_order_qty state target)

/-- baseline_ewma_base_stock (policies.py lines 47-51): EWMA forecast
over the last max(2, history_window) demands. -/
def baseline_ewma_base_stock (acklam sqrtQ : ℚ → ℚ) (state : InventoryState)
    (cfg : PolicyConfig) : Except String ℤ := do
  let hist := lastN (max 2 cfg.history_window).toNat state.demand_history
  let mu := ewma hist cfg.ewma_alpha
  let target ← approx_poisson_quantile acklam sqrtQ mu cfg.service_level_target
  pure (base_stock_order_qty state target)

/-- Insertion of one element into a sorted list of rationals. -/
def insert_sorted (x : ℚ) : List ℚ → List ℚ
  | [] => [x]
  | y :: ys => if x ≤ y then x :: y :: ys else y :: insert_sorted x ys

/-- Python sorted() on a list of rationals (insertion sort; only the
sorted result matters, not the algorithm). -/
def py_sorted (l : List ℚ) : List ℚ := l.foldr insert_sorted []

/-- cq_base_stock (policies.py lines 54-89): EWMA point forecast plus an
empirical residual-quantile adjustment over a trailing residual window,
falling back to the plain quantile target when no residuals exist. -/
def cq_base_stock (acklam sqrtQ : ℚ → ℚ) (state : InventoryState)
    (cfg : PolicyConfig) : Except String ℤ := do
  let hist := state.demand_history
  let window : ℤ := max 5 cfg.history_window
  let resid_window : ℤ := max 10 cfg.residual_window
  let recent := lastN window.toNat hist
  let mu := ewma recent cfg.ewma_alpha
  let start : ℕ := ((hist.length : ℤ) - resid_window).toNat
  let resids : List ℚ := ((List.range hist.length).drop start).filterMap
    (fun i =>
      let past := (hist.take i).drop (((i : ℤ) - window).toNat)
      if past.isEmpty then none
      else some ((hist.getD i 0 : ℚ) - ewma past cfg.ewma_alpha))
  if resids.isEmpty then do
    let target ← approx_poisson_quantile acklam sqrtQ mu cfg.service_level_target
    pure (base_stock_order_qty state target)
  else do
    let q := min (999/1000) (max (1/1000) cfg.service_level_target)
    let resids_sorted := py_sorted resids
    let idx : ℤ := ⌈q * (resids_sorted.length : ℚ)⌉ - 1
    let idx1 := max 0 (min ((resids_sorted.length : ℤ) - 1) idx)
    let adj := resids_sorted.getD idx1.toNat 0
    let calibrated_mu := max 0 (mu + adj)
    let target ← approx_poisson_quantile acklam sqrtQ calibrated_mu
      cfg.service_level_target
    pure (base_stock_order_qty state target)

/-- build_policy_fn (run_experiment.py lines 50-67): resolves the policy
by name, returning a closure over the parsed PolicyConfig; an unknown
name fails fast. No validation of the window fields is performed. -/
def build_policy_fn (acklam sqrtQ : ℚ → ℚ) (name : String)
    (pcfg : PolicyConfig) :
    Except String (InventoryState → Except String ℤ) :=
  if name = "baseline_ma_base_stock" then
    .ok (fun state => baseline_ma_base_stock acklam sqrtQ state pcfg)
  else if name = "baseline_ewma_base_stock" then
    .ok (fun state => baseline_ewma_base_stock acklam sqrtQ state pcfg)
  else if name = "cq_base_stock" then
    .ok (fun state => cq_base_stock acklam sqrtQ state pcfg)
  else .error ("unknown policy.name: " ++ name)

/-- Demand sequence used for concrete instantiations. -/
def c7_demand : ℕ → ℤ := fun t => [4, 10, 0].getD t 0

/-- Policy used for concrete instantiations: order 10 on day 0, then
nothing. -/
def c7_policy : InventoryState → ℤ := fun s => if s.day = 0 then 10 else 0

/-- A simulation configuration used for concrete instantiations. -/
def c7_cfg : SimConfig :=
  { horizon_days := 3, warmup_days := 0, shelf_life_days := 3,
    lead_time_days := 0, costs := { waste_cost := 1, stockout_cost := 3, holding_cost := 1/20 } }

section Lemmas

/-- The selling loop never changes the number of buckets. -/
theorem sell_fifo_length (bs : List ℤ) (rem : ℤ) :
    (sell_fifo bs rem).1.length = bs.length := by
  induction bs generalizing rem with
  | nil => simp [sell_fifo]
  | cons b bs ih =>
    simp only [sell_fifo]
    split
    · simp
    · simp [ih]

/-- The selling loop conserves stock: buckets after plus units sold
equals buckets before. -/
theorem sell_fifo_sum (bs : List ℤ) (rem : ℤ) :
    (sell_fifo bs rem).1.sum + (sell_fifo bs rem).2.2 = bs.sum := by
  induction bs generalizing rem with
  | nil => simp [sell_fifo]
  | cons b bs ih =>
    simp only [sell_fifo]
    split
    · simp only [List.sum_cons]
      omega
    · simp only [List.sum_cons]
      have h := ih (rem - min b rem)
      omega

/-- The selling loop conserves demand: remaining demand at exit plus
units sold equals the demand it was given. -/
theorem sell_fifo_rem (bs : List ℤ) (rem : ℤ) :
    (sell_fifo bs rem).2.1 + (sell_fifo bs rem).2.2 = rem := by
  induction bs generalizing rem with
  | nil => simp [sell_fifo]
  | cons b bs ih =>
    simp only [sell_fifo]
    split <;> rename_i hc
    · dsimp only
      omega
    · have h := ih (rem - min b rem)
      dsimp only
      omega

/-- With non-negative buckets and non-negative demand, the selling loop
keeps every bucket non-negative and returns non-negative remaining
demand and a non-negative sold count. -/
theorem sell_fifo_nonneg (bs : List ℤ) (rem : ℤ)
    (hb : ∀ x ∈ bs, 0 ≤ x) (hr : 0 ≤ rem) :
    (∀ x ∈ (sell_fifo bs rem).1, 0 ≤ x) ∧
      0 ≤ (sell_fifo bs rem).2.1 ∧ 0 ≤ (sell_fifo bs rem).2.2 := by
  induction bs generalizing rem with
  | nil =>
    simp [sell_fifo]
    omega
  | cons b bs ih =>
    have hb0 : 0 ≤ b := hb b (List.mem_cons_self b bs)
    have hbs : ∀ x ∈ bs, 0 ≤ x := fun x hx => hb x (List.mem_cons_of_mem b hx)
    simp only [sell_fifo]
    split <;> rename_i hc
    · dsimp only
      refine ⟨?_, le_refl 0, by omega⟩
      intro x hx
      rcases List.mem_cons.mp hx with h | h
      · omega
      · exact hbs x h
    · have hrem : 0 ≤ rem - min b rem := by omega
      obtain ⟨h1, h2, h3⟩ := ih (rem - min b rem) hbs hrem
      dsimp only
      refine ⟨?_, h2, by omega⟩
      intro x hx
      rcases List.mem_cons.mp hx with h | h
      · omega
      · exact h1 x h

/-- With non-negative buckets and zero demand, the selling loop changes
nothing and sells nothing. -/
theorem sell_fifo_zero (bs : List ℤ) (hb : ∀ x ∈ bs, 0 ≤ x) :
    sell_fifo bs 0 = (bs, 0, 0) := by
  cases bs with
  | nil => simp [sell_fifo]
  | cons b bs =>
    have hb0 : 0 ≤ b := hb b (List.mem_cons_self b bs)
    simp only [sell_fifo]
    have hmin : min b 0 = 0 := by omega
    simp [hmin]

/-- The default-0 head of a list of non-negative integers is
non-negative. -/
theorem headD_zero_nonneg (l : List ℤ) (h : ∀ x ∈ l, 0 ≤ x) :
    0 ≤ l.headD 0 := by
  cases l with
  | nil => simp
  | cons a l => exact h a (List.mem_cons_self a l)

/-- Appending one element and keeping the last n entries (n positive)
preserves the last element. -/
theorem lastN_concat_getLast (n : ℕ) (hn : 0 < n) (l : List ℤ) (d : ℤ) :
    (lastN n (l ++ [d])).getLast? = some d := by
  unfold lastN
  have hk : (l ++ [d]).length - n ≤ l.length := by
    simp only [List.length_append, List.length_cons, List.length_nil]
    omega
  rw [List.drop_append_of_le_length hk, List.getLast?_concat]

/-- Unfolding of step_inventory at a state with a non-empty bucket list
of the configured length: it succeeds with the aged, replenished and
sold-from buckets. -/
theorem step_inventory_cons_eq (day oldest : ℤ) (rest pipe hist : List ℤ)
    (demand order shelf lead : ℤ) (c : Costs)
    (hlen : (((oldest :: rest).length : ℕ) : ℤ) = shelf) :
    step_inventory ⟨day, oldest :: rest, pipe, hist⟩ demand order shelf lead c =
      .ok
        (⟨day + 1,
          (sell_fifo
            (rest ++ [if 0 < lead then pipe.headD 0 else pipe.headD 0 + max 0 order])
            (max 0 demand)).1,
          if 0 < lead then pipe.tail ++ [max 0 order] else [],
          lastN 365 (hist ++ [demand])⟩,
         ⟨demand,
          (sell_fifo
            (rest ++ [if 0 < lead then pipe.headD 0 else pipe.headD 0 + max 0 order])
            (max 0 demand)).2.2,
          (sell_fifo
            (rest ++ [if 0 < lead then pipe.headD 0 else pipe.headD 0 + max 0 order])
            (max 0 demand)).2.1,
          oldest,
          (sell_fifo
            (rest ++ [if 0 < lead then pipe.headD 0 else pipe.headD 0 + max 0 order])
            (max 0 demand)).1.sum,
          c.holding_cost *
            (((sell_fifo
              (rest ++ [if 0 < lead then pipe.headD 0 else pipe.headD 0 + max 0 order])
              (max 0 demand)).1.sum : ℤ) : ℚ),
          c.waste_cost * ((oldest : ℤ) : ℚ),
          c.stockout_cost *
            (((sell_fifo
              (rest ++ [if 0 < lead then pipe.headD 0 else pipe.headD 0 + max 0 order])
              (max 0 demand)).2.1 : ℤ) : ℚ)⟩) := by
  unfold step_inventory
  rw [if_neg (by simp only [ne_eq, not_not]; exact hlen)]
  by_cases hl : 0 < lead
  · simp only [if_pos hl]
  · simp only [if_neg hl]

/-- A state with an empty bucket list never succeeds (either the length
check fails or indexing the empty list fails). -/
theorem step_inventory_nil_ne_ok (day : ℤ) (pipe hist : List ℤ)
    (demand order shelf lead : ℤ) (c : Costs)
    (res : InventoryState × StepMetrics) :
    step_inventory ⟨day, [], pipe, hist⟩ demand order shelf lead c ≠ .ok res := by
  unfold step_inventory
  split <;> split <;> simp

end Lemmas

/-- C1: conservation law for a single inventory transition. For every
state whose on_hand_by_age length equals shelf_life_days with
non-negative buckets, and every non-negative demand and order quantity
(with a non-negative lead time), a successful step_inventory transition
satisfies wasted + sold + ending on-hand total = pre-transition on-hand
total + received, where received is the pipeline head plus the order
quantity when the lead time is 0. -/
theorem c1_conservation (state : InventoryState)
    (demand order shelf lead : ℤ) (c : Costs)
    (s1 : InventoryState) (m : StepMetrics)
    (hlen : ((state.on_hand_by_age.length : ℕ) : ℤ) = shelf)
    (hbuckets : ∀ x ∈ state.on_hand_by_age, 0 ≤ x)
    (hdemand : 0 ≤ demand) (horder : 0 ≤ order) (hlead : 0 ≤ lead)
    (hok : step_inventory state demand order shelf lead c = .ok (s1, m)) :
    m.wasted + m.sold + s1.on_hand_total =
      state.on_hand_total +
        (state.pipeline.headD 0 + if lead = 0 then order else 0) := by
  obtain ⟨day, oh, pipe, hist⟩ := state
  cases oh with
  | nil => exact absurd hok (step_inventory_nil_ne_ok _ _ _ _ _ _ _ _ _)
  | cons oldest rest =>
    rw [step_inventory_cons_eq day oldest rest pipe hist demand order shelf
      lead c hlen] at hok
    simp only [Except.ok.injEq, Prod.mk.injEq] at hok
    obtain ⟨h1, h2⟩ := hok
    subst h1
    subst h2
    simp only [InventoryState.on_hand_total]
    have hsum := sell_fifo_sum
      (rest ++ [if 0 < lead then pipe.headD 0 else pipe.headD 0 + max 0 order])
      (max 0 demand)
    simp only [List.sum_append, List.sum_cons, List.sum_nil] at hsum ⊢
    have hmax : max 0 order = order := by omega
    rcases eq_or_lt_of_le hlead with h0 | hpos
    · obtain rfl : lead = 0 := h0.symm
      simp only [lt_irrefl, if_false, if_true, hmax] at hsum ⊢
      omega
    · simp only [if_pos hpos, if_neg (by omega : ¬ lead = 0)] at hsum ⊢
      omega

/-- c1_conservation applied at a concrete transition: state with buckets
[1, 2], pipeline [5], demand 3, order 4, shelf life 2, lead time 1;
wasted 1 + sold 3 + ending 4 equals pre-transition 3 + received 5. -/
theorem c1_conservation_witness :
    (⟨3, 3, 0, 1, 4, 1/5, 1, 0⟩ : StepMetrics).wasted +
        (⟨3, 3, 0, 1, 4, 1/5, 1, 0⟩ : StepMetrics).sold +
        InventoryState.on_hand_total ⟨1, [0, 4], [4], [3]⟩ =
      InventoryState.on_hand_total ⟨0, [1, 2], [5], []⟩ +
        ((⟨0, [1, 2], [5], []⟩ : InventoryState).pipeline.headD 0 +
          if (1 : ℤ) = 0 then 4 else 0) :=
  c1_conservation ⟨0, [1, 2], [5], []⟩ 3 4 2 1 ⟨1, 3, 1/20⟩
    ⟨1, [0, 4], [4], [3]⟩ ⟨3, 3, 0, 1, 4, 1/5, 1, 0⟩
    (by decide) (by decide) (by decide)
    (by norm_num [step_inventory, sell_fifo, lastN]) (by decide)
    (by norm_num [step_inventory, sell_fifo, lastN])

/-- C2: for every valid input state (bucket list of the configured
length, all on-hand and pipeline buckets non-negative) and every demand
and order quantity, a successful step_inventory transition returns a
state whose on_hand_by_age has the same length, with every bucket
non-negative, hence a non-negative on-hand total, and a non-negative
pipeline again, so the invariant is preserved across every transition. -/
theorem c2_step_invariants (state : InventoryState)
    (demand order shelf lead : ℤ) (c : Costs)
    (s1 : InventoryState) (m : StepMetrics)
    (hlen : ((state.on_hand_by_age.length : ℕ) : ℤ) = shelf)
    (hbuckets : ∀ x ∈ state.on_hand_by_age, 0 ≤ x)
    (hpipe : ∀ x ∈ state.pipeline, 0 ≤ x)
    (hok : step_inventory state demand order shelf lead c = .ok (s1, m)) :
    s1.on_hand_by_age.length = state.on_hand_by_age.length ∧
      (∀ x ∈ s1.on_hand_by_age, 0 ≤ x) ∧ 0 ≤ s1.on_hand_total ∧
      (∀ x ∈ s1.pipeline, 0 ≤ x) := by
  obtain ⟨day, oh, pipe, hist⟩ := state
  cases oh with
  | nil => exact absurd hok (step_inventory_nil_ne_ok _ _ _ _ _ _ _ _ _)
  | cons oldest rest =>
    rw [step_inventory_cons_eq day oldest rest pipe hist demand order shelf
      lead c hlen] at hok
    simp only [Except.ok.injEq, Prod.mk.injEq] at hok
    obtain ⟨h1, h2⟩ := hok
    subst h1
    subst h2
    have hhead : 0 ≤ pipe.headD 0 := headD_zero_nonneg pipe hpipe
    have hshelved : ∀ x ∈
        rest ++ [if 0 < lead then pipe.headD 0 else pipe.headD 0 + max 0 order],
        0 ≤ x := by
      intro x hx
      rcases List.mem_append.mp hx with h | h
      · exact hbuckets x (List.mem_cons_of_mem oldest h)
      · rcases List.mem_singleton.mp h with rfl
        split <;> omega
    obtain ⟨hout, hrem, hsold⟩ := sell_fifo_nonneg
      (rest ++ [if 0 < lead then pipe.headD 0 else pipe.headD 0 + max 0 order])
      (max 0 demand) hshelved (le_max_left 0 demand)
    refine ⟨?_, hout, List.sum_nonneg hout, ?_⟩
    · simp only [InventoryState.on_hand_by_age]
      rw [sell_fifo_length]
      simp
    · simp only [InventoryState.pipeline]
      split
      · intro x hx
        rcases List.mem_append.mp hx with h | h
        · exact hpipe x (List.mem_of_mem_tail h)
        · rcases List.mem_singleton.mp h with rfl
          omega
      · simp

/-- c2_step_invariants applied at a concrete transition: state with
buckets [1, 2], pipeline [5], demand 3, order 4, shelf life 2, lead time
1 yields buckets [0, 4], all non-negative, with total 4 and pipeline
[4]. -/
theorem c2_step_invariants_witness :
    (⟨1, [0, 4], [4], [3]⟩ : InventoryState).on_hand_by_age.length =
        (⟨0, [1, 2], [5], []⟩ : InventoryState).on_hand_by_age.length ∧
      0 ≤ InventoryState.on_hand_total ⟨1, [0, 4], [4], [3]⟩ :=
  ⟨(c2_step_invariants ⟨0, [1, 2], [5], []⟩ 3 4 2 1 ⟨1, 3, 1/20⟩
      ⟨1, [0, 4], [4], [3]⟩ ⟨3, 3, 0, 1, 4, 1/5, 1, 0⟩
      (by decide) (by decide) (by decide)
      (by norm_num [step_inventory, sell_fifo, lastN])).1,
   (c2_step_invariants ⟨0, [1, 2], [5], []⟩ 3 4 2 1 ⟨1, 3, 1/20⟩
      ⟨1, [0, 4], [4], [3]⟩ ⟨3, 3, 0, 1, 4, 1/5, 1, 0⟩
      (by decide) (by decide) (by decide)
      (by norm_num [step_inventory, sell_fifo, lastN])).2.2.1⟩

/-- C3: the concrete scenario with shelf_life_days 3, lead_time_days 0,
all-zero initial state, an order of 10 on day 1 and demands [4, 10, 0]:
day 1 receives 10 into the freshest bucket, wastes 0, sells 4, ends with
6 on hand; day 2 sells min(6, 10) = 6 with stockout 4; day 3 has all
buckets empty, wastes 0, and its stockout equals the full (zero)
demand. -/
theorem c3_concrete_scenario :
    step_inventory ⟨0, [0, 0, 0], [], []⟩ 4 10 3 0 ⟨1, 3, 1/20⟩ =
        .ok (⟨1, [0, 0, 6], [], [4]⟩, ⟨4, 4, 0, 0, 6, 3/10, 0, 0⟩) ∧
      step_inventory ⟨1, [0, 0, 6], [], [4]⟩ 10 0 3 0 ⟨1, 3, 1/20⟩ =
        .ok (⟨2, [0, 0, 0], [], [4, 10]⟩, ⟨10, 6, 4, 0, 0, 0, 0, 12⟩) ∧
      step_inventory ⟨2, [0, 0, 0], [], [4, 10]⟩ 0 0 3 0 ⟨1, 3, 1/20⟩ =
        .ok (⟨3, [0, 0, 0], [], [4, 10, 0]⟩, ⟨0, 0, 0, 0, 0, 0, 0, 0⟩) := by
  refine ⟨?_, ?_, ?_⟩ <;> norm_num [step_inventory, sell_fifo, lastN]

set_option maxRecDepth 4000 in
/-- C10: for every valid state (matching bucket length, non-negative
on-hand and pipeline buckets) and every strictly negative demand, a
successful step_inventory transition clamps the demand to zero for
fulfillment: sold and stockout are both 0 and the buckets are exactly
the aged buckets plus the received quantity in the freshest slot, yet
the raw negative demand is appended to demand_history, whose last entry
therefore equals the negative input. -/
theorem c10_negative_demand (state : InventoryState)
    (demand order shelf lead : ℤ) (c : Costs)
    (s1 : InventoryState) (m : StepMetrics)
    (hlen : ((state.on_hand_by_age.length : ℕ) : ℤ) = shelf)
    (hbuckets : ∀ x ∈ state.on_hand_by_age, 0 ≤ x)
    (hpipe : ∀ x ∈ state.pipeline, 0 ≤ x)
    (hdem : demand < 0)
    (hok : step_inventory state demand order shelf lead c = .ok (s1, m)) :
    m.sold = 0 ∧ m.stockout = 0 ∧
      s1.on_hand_by_age = state.on_hand_by_age.tail ++
        [if 0 < lead then state.pipeline.headD 0
         else state.pipeline.headD 0 + max 0 order] ∧
      s1.demand_history.getLast? = some demand := by
  obtain ⟨day, oh, pipe, hist⟩ := state
  cases oh with
  | nil => exact absurd hok (step_inventory_nil_ne_ok _ _ _ _ _ _ _ _ _)
  | cons oldest rest =>
    rw [step_inventory_cons_eq day oldest rest pipe hist demand order shelf
      lead c hlen] at hok
    simp only [Except.ok.injEq, Prod.mk.injEq] at hok
    obtain ⟨h1, h2⟩ := hok
    subst h1
    subst h2
    have hhead : 0 ≤ pipe.headD 0 := headD_zero_nonneg pipe hpipe
    have hshelved : ∀ x ∈
        rest ++ [if 0 < lead then pipe.headD 0 else pipe.headD 0 + max 0 order],
        0 ≤ x := by
      intro x hx
      rcases List.mem_append.mp hx with h | h
      · exact hbuckets x (List.mem_cons_of_mem oldest h)
      · rcases List.mem_singleton.mp h with rfl
        split <;> omega
    have h0 : max 0 demand = 0 := by omega
    rw [h0, sell_fifo_zero _ hshelved]
    refine ⟨rfl, rfl, ?_, lastN_concat_getLast 365 (by norm_num) hist demand⟩
    simp

/-- c10_negative_demand applied at a concrete transition: state with
buckets [1, 2], pipeline [5], demand -7, order 4, shelf life 2, lead
time 1: nothing is sold, there is no stockout, the buckets become [2, 5]
and the history records -7. -/
theorem c10_negative_demand_witness :
    (⟨-7, 0, 0, 1, 7, 7/20, 1, 0⟩ : StepMetrics).sold = 0 ∧
      (⟨-7, 0, 0, 1, 7, 7/20, 1, 0⟩ : StepMetrics).stockout = 0 ∧
      (⟨1, [2, 5], [4], [-7]⟩ : InventoryState).on_hand_by_age =
        (⟨0, [1, 2], [5], []⟩ : InventoryState).on_hand_by_age.tail ++
          [if (0 : ℤ) < 1 then
            (⟨0, [1, 2], [5], []⟩ : InventoryState).pipeline.headD 0
           else (⟨0, [1, 2], [5], []⟩ : InventoryState).pipeline.headD 0 +
            max 0 4] ∧
      (⟨1, [2, 5], [4], [-7]⟩ : InventoryState).demand_history.getLast? =
        some (-7) :=
  c10_negative_demand ⟨0, [1, 2], [5], []⟩ (-7) 4 2 1 ⟨1, 3, 1/20⟩
    ⟨1, [2, 5], [4], [-7]⟩ ⟨-7, 0, 0, 1, 7, 7/20, 1, 0⟩
    (by decide) (by decide) (by decide) (by decide)
    (by norm_num [step_inventory, sell_fifo, lastN])

/-- C5 counterexample: at rate 50 with a normal draw of 2.7, the code
returns max(0, int(2.7)) = 2, not max(0, round(2.7)) = 3: the large-rate
branch truncates toward zero instead of rounding to nearest. -/
theorem c5_counterexample :
    sample_poisson (fun _ => 0) (fun _ => 0) (27/10) 0 50 ≠
      some (max 0 (py_round (27/10))) := by
  norm_num [sample_poisson, py_int_trunc, py_round]

/-- C5 (amended): for every rate at least 50 and every stream, the
normal-approximation branch of sample_poisson returns
max(0, int(x)) where x is the single normal draw and int truncates
toward zero (the Python int() conversion), not round-to-nearest. -/
theorem c5_large_rate_truncates (expNeg : ℚ → ℚ) (uni : ℕ → ℚ)
    (g : ℚ) (fuel : ℕ) (lam : ℚ) (h : 50 ≤ lam) :
    sample_poisson expNeg uni g fuel lam = some (max 0 (py_int_trunc g)) := by
  unfold sample_poisson
  have h0 : (0 : ℚ) ≤ lam := le_trans (by norm_num) h
  rw [max_eq_right h0,
    if_neg (by intro hz; rw [hz] at h; norm_num at h),
    if_neg (not_lt.mpr h)]

/-- c5_large_rate_truncates applied at a concrete input: rate 60, normal
draw 2.5, truncated to 2. -/
theorem c5_large_rate_truncates_witness :
    sample_poisson (fun _ => 0) (fun _ => 0) (5/2) 3 60 =
      some (max 0 (py_int_trunc (5/2))) :=
  c5_large_rate_truncates (fun _ => 0) (fun _ => 0) (5/2) 3 60 (by norm_num)

/-- The quantile conversion never fails: the service level is clamped
strictly inside (0,1) before inv_norm_cdf is applied, and a zero mean
short-circuits. -/
theorem approx_poisson_quantile_ok (acklam sqrtQ : ℚ → ℚ) (mu sl : ℚ) :
    ∃ n, approx_poisson_quantile acklam sqrtQ mu sl = .ok n := by
  unfold approx_poisson_quantile
  by_cases h : max 0 mu = 0
  · rw [if_pos h]
    exact ⟨0, rfl⟩
  · have hcond : 0 < min (999999/1000000 : ℚ) (max (1/1000000) sl) ∧
        min (999999/1000000 : ℚ) (max (1/1000000) sl) < 1 := by
      constructor
      · apply lt_min
        · norm_num
        · exact lt_of_lt_of_le (by norm_num) (le_max_left _ _)
      · exact lt_of_le_of_lt (min_le_left _ _) (by norm_num)
    rw [if_neg h]
    unfold inv_norm_cdf
    rw [if_pos hcond]
    exact ⟨_, rfl⟩

/-- Sequencing the quantile conversion with any continuation that
succeeds yields a success. -/
theorem apq_bind_ok (acklam sqrtQ : ℚ → ℚ) (mu sl : ℚ)
    (f : ℤ → Except String ℤ) (hf : ∀ z, ∃ n, f z = .ok n) :
    ∃ n, (approx_poisson_quantile acklam sqrtQ mu sl >>= f) = .ok n := by
  obtain ⟨z, hz⟩ := approx_poisson_quantile_ok acklam sqrtQ mu sl
  rw [hz]
  exact hf z

/-- C6 counterexample: a malformed configuration with the non-positive
history window 0 does not raise any condition at policy construction
time (build_policy_fn returns the policy closure), and the constructed
policy also succeeds per-call, because the window is silently clamped. -/
theorem c6_counterexample :
    build_policy_fn (fun _ => 0) (fun _ => 0) "baseline_ma_base_stock"
        ⟨19/20, 0, 1/5, 60⟩ =
      .ok (fun state =>
        baseline_ma_base_stock (fun _ => 0) (fun _ => 0) state
          ⟨19/20, 0, 1/5, 60⟩) ∧
    baseline_ma_base_stock (fun _ => 0) (fun _ => 0) ⟨0, [0, 0, 0], [], []⟩
        ⟨19/20, 0, 1/5, 60⟩ = .ok 0 := by
  constructor
  · rfl
  · decide

/-- C6 (amended): all three replenishment policies are pure functions of
(state, config) that never fail when invoked, for every configuration
including non-positive windows, which are silently clamped per-call
(to at least 1, 2 and 5 respectively) rather than rejected; no
InvalidConfig condition exists at construction or call time. -/
theorem c6_policies_never_fail (acklam sqrtQ : ℚ → ℚ)
    (state : InventoryState) (cfg : PolicyConfig) :
    (∃ n, baseline_ma_base_stock acklam sqrtQ state cfg = .ok n) ∧
      (∃ n, baseline_ewma_base_stock acklam sqrtQ state cfg = .ok n) ∧
      (∃ n, cq_base_stock acklam sqrtQ state cfg = .ok n) := by
  refine ⟨?_, ?_, ?_⟩
  · unfold baseline_ma_base_stock
    exact apq_bind_ok _ _ _ _ _ (fun z => ⟨_, rfl⟩)
  · unfold baseline_ewma_base_stock
    exact apq_bind_ok _ _ _ _ _ (fun z => ⟨_, rfl⟩)
  · simp only [cq_base_stock]
    split
    · exact apq_bind_ok _ _ _ _ _ (fun z => ⟨_, rfl⟩)
    · exact apq_bind_ok _ _ _ _ _ (fun z => ⟨_, rfl⟩)

/-- C7: the episode runner is deterministic: two runs with the same
simulation configuration, demand generator, policy and seed produce the
identical EpisodeResult (and hence identical derived rates). -/
theorem c7_run_episode_deterministic (cfg : SimConfig) (demand_fn : ℕ → ℤ)
    (policy_fn : InventoryState → ℤ) (seed1 seed2 : ℤ) (h : seed1 = seed2) :
    run_episode cfg demand_fn policy_fn seed1 =
      run_episode cfg demand_fn policy_fn seed2 := by rw [h]

/-- c7_run_episode_deterministic applied at a concrete configuration,
demand sequence, policy and seed. -/
theorem c7_run_episode_deterministic_witness :
    run_episode c7_cfg c7_demand c7_policy 7 =
      run_episode c7_cfg c7_demand c7_policy 7 :=
  c7_run_episode_deterministic c7_cfg c7_demand c7_policy 7 7 rfl

/-- C8: warmup_days never affects metrics accumulation: two simulation
configurations that differ only in warmup_days give identical
EpisodeResult for every demand generator, policy and seed, because
run_episode accumulates totals over all horizon_days days without any
warm-up exclusion. -/
theorem c8_warmup_days_unused (h w1 w2 s l : ℤ) (c : Costs)
    (demand_fn : ℕ → ℤ) (policy_fn : InventoryState → ℤ) (seed : ℤ) :
    run_episode ⟨h, w1, s, l, c⟩ demand_fn policy_fn seed =
      run_episode ⟨h, w2, s, l, c⟩ demand_fn policy_fn seed := rfl

/-- C9 counterexample: an EpisodeResult with the negative total demand
-1 and total stockout 1 has total_demand different from 0, yet its
service_level is 1, not the claimed 1 - stockout/demand = 2: the code
guards with total_demand less-or-equal 0, not equal 0. -/
theorem c9_counterexample :
    (⟨-1, 0, 1, 0, 0, 0⟩ : EpisodeResult).total_demand ≠ 0 ∧
      EpisodeResult.service_level ⟨-1, 0, 1, 0, 0, 0⟩ ≠
        1 - ((⟨-1, 0, 1, 0, 0, 0⟩ : EpisodeResult).total_stockout : ℚ) /
          ((⟨-1, 0, 1, 0, 0, 0⟩ : EpisodeResult).total_demand : ℚ) := by
  constructor
  · decide
  · norm_num [EpisodeResult.service_level]

/-- C9 (amended): service_level is exactly 1 whenever total_demand is
less-or-equal 0 (in particular when it is 0) and equals
1 - total_stockout/total_demand whenever total_demand is positive;
waste_rate is exactly 0 whenever total_received is less-or-equal 0 (in
particular when it is 0) and equals total_wasted/total_received whenever
total_received is positive. -/
theorem c9_derived_rates (r : EpisodeResult) :
    (r.total_demand ≤ 0 → r.service_level = 1) ∧
      (0 < r.total_demand →
        r.service_level = 1 - (r.total_stockout : ℚ) / (r.total_demand : ℚ)) ∧
      (r.total_received ≤ 0 → r.waste_rate = 0) ∧
      (0 < r.total_received →
        r.waste_rate = (r.total_wasted : ℚ) / (r.total_received : ℚ)) := by
  unfold EpisodeResult.service_level EpisodeResult.waste_rate
  exact ⟨fun h => if_pos h, fun h => if_neg (by omega),
    fun h => if_pos h, fun h => if_neg (by omega)⟩

/-- c9_derived_rates applied at concrete results: zero demand gives
service level 1, zero receipts give waste rate 0, and positive totals
give the quotient formulas. -/
theorem c9_derived_rates_witness :
    EpisodeResult.service_level ⟨0, 0, 0, 0, 0, 0⟩ = 1 ∧
      EpisodeResult.service_level ⟨5, 3, 2, 0, 4, 0⟩ =
        1 - ((2 : ℤ) : ℚ) / ((5 : ℤ) : ℚ) ∧
      EpisodeResult.waste_rate ⟨0, 0, 0, 0, 0, 0⟩ = 0 ∧
      EpisodeResult.waste_rate ⟨5, 3, 2, 1, 4, 0⟩ =
        ((1 : ℤ) : ℚ) / ((4 : ℤ) : ℚ) := by
  refine ⟨(c9_derived_rates ⟨0, 0, 0, 0, 0, 0⟩).1 (by decide), ?_,
    (c9_derived_rates ⟨0, 0, 0, 0, 0, 0⟩).2.2.1 (by decide), ?_⟩
  · exact (c9_derived_rates ⟨5, 3, 2, 0, 4, 0⟩).2.1 (by decide)
  · exact (c9_derived_rates ⟨5, 3, 2, 1, 4, 0⟩).2.2.2 (by decide)

end InvSim
